import Mathlib

/-!
Shallow embedding of the Game of Life engine from `src/main.c`
(Conway's Game of Life for the Commodore 64, 40×25 toroidal grid,
bordered 42×27 cell buffers, pointer-swapped double buffering,
branch-free rule tables, and an off-screen display buffer).

Buffers are modelled as total functions `Nat → Nat` (flat, row-major,
exactly the C index arithmetic `IDX(y,x) = y*BWIDTH + x`).  Sequential
in-place loops whose writes hit pairwise distinct cells and whose reads
never touch a written cell are rendered either as folds of single-cell
stores (`update_borders`, `draw_preset`) or pointwise (`calc_next_gen`,
whose writes go to the disjoint `next`/`screenBuf` buffers while all
reads come from `current`).
-/

namespace GameOfLife

/-- Source `#define WIDTH 40`. -/
def WIDTH : Nat := 40

/-- Source `#define HEIGHT 25`. -/
def HEIGHT : Nat := 25

/-- Source `#define BWIDTH (WIDTH + 2)`. -/
def BWIDTH : Nat := WIDTH + 2

/-- Source `#define BHEIGHT (HEIGHT + 2)`. -/
def BHEIGHT : Nat := HEIGHT + 2

/-- Source `#define IDX(y,x) ((y) * BWIDTH + (x))`. -/
def IDX (y x : Nat) : Nat := y * BWIDTH + x

/-- Source `#define LIVE_CHAR 0x51`. -/
def LIVE_CHAR : Nat := 0x51

/-- Source `#define DEAD_CHAR ' '` (PETSCII/ASCII space, 32). -/
def DEAD_CHAR : Nat := 32

/-- A flat cell buffer, index → byte value. -/
def Buf : Type := Nat → Nat

/-- A single in-place byte store `b[i] = v`. -/
def store (b : Buf) (i v : Nat) : Buf := fun j => if j = i then v else b j

/-- One iteration of the horizontal-wrap loop body of `update_borders`:
`row[0] = row[WIDTH]; row[BWIDTH-1] = row[1];` for row `y`,
executed sequentially (the second store reads the buffer after the first). -/
def mirrorRow (b : Buf) (y : Nat) : Buf :=
  let b1 := store b (IDX y 0) (b (IDX y WIDTH))
  store b1 (IDX y (BWIDTH - 1)) (b1 (IDX y 1))

/-- The horizontal-wrap loop of `update_borders`, rows `1..n` in ascending
order (`for (int y = 1; y <= HEIGHT; ++y)`). -/
def mirrorRows (b : Buf) : Nat → Buf
  | 0 => b
  | n + 1 => mirrorRow (mirrorRows b n) (n + 1)

/-- Source `memcpy(current + IDX(dst,0), current + IDX(src,0), BWIDTH)` for the
disjoint source/destination rows used in `update_borders`. -/
def copyRow (b : Buf) (dst src : Nat) : Buf :=
  fun i => if IDX dst 0 ≤ i ∧ i < IDX dst 0 + BWIDTH then b (IDX src 0 + (i - IDX dst 0)) else b i

/-- Source `void update_borders(void)`: horizontal wrap row by row, then the two
whole-row copies for the vertical wrap (top border row from row `HEIGHT`,
bottom border row from row 1). -/
def update_borders (b : Buf) : Buf :=
  copyRow (copyRow (mirrorRows b HEIGHT) 0 HEIGHT) (BHEIGHT - 1) 1

/-- Source `static const unsigned char next_from_dead[9]  = {0,0,0,1,0,0,0,0,0};`. -/
def next_from_dead : List Nat := [0, 0, 0, 1, 0, 0, 0, 0, 0]

/-- Source `static const unsigned char next_from_alive[9] = {0,0,1,1,0,0,0,0,0};`. -/
def next_from_alive : List Nat := [0, 0, 1, 1, 0, 0, 0, 0, 0]

/-- The neighbour sum of `calc_next_gen`, with the exact index arithmetic of
the source (`base = y * BWIDTH`, offsets `±BWIDTH`, `±1`). -/
def neighbours (cur : Buf) (y x : Nat) : Nat :=
  cur (y * BWIDTH - BWIDTH + x - 1) +
  cur (y * BWIDTH - BWIDTH + x) +
  cur (y * BWIDTH - BWIDTH + x + 1) +
  cur (y * BWIDTH + x - 1) +
  cur (y * BWIDTH + x + 1) +
  cur (y * BWIDTH + BWIDTH + x - 1) +
  cur (y * BWIDTH + BWIDTH + x) +
  cur (y * BWIDTH + BWIDTH + x + 1)

/-- Source `alive ? next_from_alive[neighbours] : next_from_dead[neighbours]`. -/
def rule (alive n : Nat) : Nat :=
  if alive ≠ 0 then next_from_alive.getD n 0 else next_from_dead.getD n 0

/-- The `next`-buffer effect of `calc_next_gen`: every logical cell
(`1 ≤ y ≤ HEIGHT`, `1 ≤ x ≤ WIDTH` in physical coordinates) gets the rule
applied to `cur`; all other bytes of `next` are untouched.  Each cell is
written exactly once and all reads come from `cur`, so the loop is
rendered pointwise. -/
def calcNextBuf (cur nxt : Buf) : Buf := fun i =>
  if 1 ≤ i / BWIDTH ∧ i / BWIDTH ≤ HEIGHT ∧ 1 ≤ i % BWIDTH ∧ i % BWIDTH ≤ WIDTH then
    rule (cur i) (neighbours cur (i / BWIDTH) (i % BWIDTH))
  else nxt i

/-- The `screenBuf` effect of `calc_next_gen`:
`screenBuf[(y-1)*WIDTH + (x-1)] = v ? LIVE_CHAR : DEAD_CHAR`. -/
def calcScreen (cur scr : Buf) : Buf := fun p =>
  if p < WIDTH * HEIGHT then
    if rule (cur (IDX (p / WIDTH + 1) (p % WIDTH + 1)))
        (neighbours cur (p / WIDTH + 1) (p % WIDTH + 1)) ≠ 0
    then LIVE_CHAR else DEAD_CHAR
  else scr p

/-- The global mutable state: `current`, `next`, `screenBuf`. -/
structure LifeState where
  cur : Buf
  nxt : Buf
  scr : Buf

/-- The action of `update_borders` on the global state (mutates `current` only). -/
def update_borders_st (s : LifeState) : LifeState :=
  { s with cur := update_borders s.cur }

/-- Source `void calc_next_gen(void)`: fills `next` and builds `screenBuf`,
reading only `current`. -/
def calc_next_gen (s : LifeState) : LifeState :=
  { s with nxt := calcNextBuf s.cur s.nxt, scr := calcScreen s.cur s.scr }

/-- Source `unsigned char *tmp = current; current = next; next = tmp;`. -/
def swap_bufs (s : LifeState) : LifeState :=
  { cur := s.nxt, nxt := s.cur, scr := s.scr }

/-- One full generation cycle of the simulation loop:
`update_borders(); calc_next_gen(); swap;`. -/
def step (s : LifeState) : LifeState :=
  swap_bufs (calc_next_gen (update_borders_st s))

/-! ### Index arithmetic -/

theorem IDX_eq_iff {y x y' x' : Nat} (hx : x < 42) (hx' : x' < 42) :
    IDX y x = IDX y' x' ↔ y = y' ∧ x = x' := by
  simp only [IDX, BWIDTH, WIDTH]
  omega

theorem store_self (b : Buf) (i v : Nat) : store b i v i = v := by
  simp [store]

theorem store_other (b : Buf) (i v j : Nat) (h : j ≠ i) : store b i v j = b j := by
  simp [store, h]

/-! ### Pointwise characterization of `update_borders` -/

/-- What `mirrorRows b n` (rows `1..n` mirrored) holds at any in-bounds cell. -/
theorem mirrorRows_spec (b : Buf) (n : Nat) : ∀ y x, x ≤ 41 →
    mirrorRows b n (IDX y x) =
      if 1 ≤ y ∧ y ≤ n ∧ x = 0 then b (IDX y WIDTH)
      else if 1 ≤ y ∧ y ≤ n ∧ x = BWIDTH - 1 then b (IDX y 1)
      else b (IDX y x) := by
  intro y x hx
  induction n generalizing y x with
  | zero =>
    simp only [mirrorRows]
    have h1 : ¬(1 ≤ y ∧ y ≤ 0 ∧ x = 0) := by omega
    have h2 : ¬(1 ≤ y ∧ y ≤ 0 ∧ x = BWIDTH - 1) := by omega
    rw [if_neg h1, if_neg h2]
  | succ n ih =>
    simp only [mirrorRows, mirrorRow]
    have hW : WIDTH = 40 := rfl
    have hB : BWIDTH - 1 = 41 := rfl
    -- the values read by the two stores of row n+1
    have hread40 : mirrorRows b n (IDX (n + 1) WIDTH) = b (IDX (n + 1) WIDTH) := by
      rw [ih (n + 1) WIDTH (by omega)]
      have h1 : ¬(1 ≤ n + 1 ∧ n + 1 ≤ n ∧ WIDTH = 0) := by omega
      have h2 : ¬(1 ≤ n + 1 ∧ n + 1 ≤ n ∧ WIDTH = BWIDTH - 1) := by omega
      rw [if_neg h1, if_neg h2]
    have hne01 : IDX (n + 1) 1 ≠ IDX (n + 1) 0 := by
      intro h
      exact absurd ((IDX_eq_iff (by omega) (by omega)).mp h).2 (by omega)
    have hread1 :
        store (mirrorRows b n) (IDX (n + 1) 0) (mirrorRows b n (IDX (n + 1) WIDTH))
          (IDX (n + 1) 1) = b (IDX (n + 1) 1) := by
      rw [store_other _ _ _ _ hne01, ih (n + 1) 1 (by omega)]
      have h1 : ¬(1 ≤ n + 1 ∧ n + 1 ≤ n ∧ (1 : Nat) = 0) := by omega
      have h2 : ¬(1 ≤ n + 1 ∧ n + 1 ≤ n ∧ (1 : Nat) = BWIDTH - 1) := by omega
      rw [if_neg h1, if_neg h2]
    by_cases hright : y = n + 1 ∧ x = BWIDTH - 1
    · -- the cell written by the second store of row n+1
      rcases hright with ⟨rfl, rfl⟩
      rw [show IDX (n + 1) (BWIDTH - 1) = IDX (n + 1) (BWIDTH - 1) from rfl]
      rw [store_self, hread1]
      have h1 : ¬(1 ≤ n + 1 ∧ n + 1 ≤ n + 1 ∧ BWIDTH - 1 = 0) := by omega
      have h2 : (1 ≤ n + 1 ∧ n + 1 ≤ n + 1 ∧ BWIDTH - 1 = BWIDTH - 1) := by omega
      rw [if_neg h1, if_pos h2]
    · have hnright : IDX y x ≠ IDX (n + 1) (BWIDTH - 1) := by
        intro h
        exact hright ((IDX_eq_iff (by omega) (by omega)).mp h)
      rw [store_other _ _ _ _ hnright]
      by_cases hleft : y = n + 1 ∧ x = 0
      · rcases hleft with ⟨rfl, rfl⟩
        rw [store_self, hread40]
        have h2 : (1 ≤ n + 1 ∧ n + 1 ≤ n + 1 ∧ (0 : Nat) = 0) := by omega
        rw [if_pos h2]
      · have hnleft : IDX y x ≠ IDX (n + 1) 0 := by
          intro h
          exact hleft ((IDX_eq_iff (by omega) (by omega)).mp h)
        rw [store_other _ _ _ _ hnleft, ih y x hx]
        by_cases c1 : 1 ≤ y ∧ y ≤ n ∧ x = 0
        · have c1' : 1 ≤ y ∧ y ≤ n + 1 ∧ x = 0 := by omega
          rw [if_pos c1, if_pos c1']
        · by_cases c2 : 1 ≤ y ∧ y ≤ n ∧ x = BWIDTH - 1
          · have c2' : 1 ≤ y ∧ y ≤ n + 1 ∧ x = BWIDTH - 1 := by omega
            have c1' : ¬(1 ≤ y ∧ y ≤ n + 1 ∧ x = 0) := by
              simp only [hB] at c2 ⊢
              omega
            rw [if_neg c1, if_pos c2, if_neg c1', if_pos c2']
          · have c1' : ¬(1 ≤ y ∧ y ≤ n + 1 ∧ x = 0) := by
              intro h
              rcases h with ⟨ha, hb, rfl⟩
              exact hleft ⟨by omega, rfl⟩
            have c2' : ¬(1 ≤ y ∧ y ≤ n + 1 ∧ x = BWIDTH - 1) := by
              intro h
              rcases h with ⟨ha, hb, rfl⟩
              exact hright ⟨by omega, rfl⟩
            rw [if_neg c1, if_neg c2, if_neg c1', if_neg c2']

theorem copyRow_in (b : Buf) (dst src x : Nat) (hx : x < 42) :
    copyRow b dst src (IDX dst x) = b (IDX src x) := by
  have hcond : IDX dst 0 ≤ IDX dst x ∧ IDX dst x < IDX dst 0 + BWIDTH := by
    simp only [IDX, BWIDTH, WIDTH]
    omega
  have harg : IDX src 0 + (IDX dst x - IDX dst 0) = IDX src x := by
    simp only [IDX, BWIDTH, WIDTH]
    omega
  simp only [copyRow, if_pos hcond, harg]

theorem copyRow_out (b : Buf) (dst src y x : Nat) (hx : x < 42) (hy : y ≠ dst) :
    copyRow b dst src (IDX y x) = b (IDX y x) := by
  have hcond : ¬(IDX dst 0 ≤ IDX y x ∧ IDX y x < IDX dst 0 + BWIDTH) := by
    simp only [IDX, BWIDTH, WIDTH]
    intro h
    exact hy (by omega)
  simp only [copyRow, if_neg hcond]

/-- Toroidal wrap of a physical row index through the mirrored border:
rows 1..25 are themselves, the top border row reads row `HEIGHT`,
the bottom border row reads row 1. -/
def wrapY (y : Nat) : Nat := if y = 0 then HEIGHT else if y = BHEIGHT - 1 then 1 else y

/-- Toroidal wrap of a physical column index through the mirrored border. -/
def wrapX (x : Nat) : Nat := if x = 0 then WIDTH else if x = BWIDTH - 1 then 1 else x

/-- Pointwise characterization of `update_borders`: every physical cell of the
result reads the interior cell that is its toroidal counterpart. -/
theorem update_borders_spec (b : Buf) (y x : Nat) (hy : y ≤ 26) (hx : x ≤ 41) :
    update_borders b (IDX y x) = b (IDX (wrapY y) (wrapX x)) := by
  have hH : HEIGHT = 25 := rfl
  have hBH : BHEIGHT - 1 = 26 := rfl
  have hB : BWIDTH - 1 = 41 := rfl
  have hW : WIDTH = 40 := rfl
  -- what the horizontal phase holds at any row, in wrapped-column form
  have hmir : ∀ y', 1 ≤ y' → y' ≤ 25 →
      mirrorRows b HEIGHT (IDX y' x) = b (IDX y' (wrapX x)) := by
    intro y' h1 h2
    rw [mirrorRows_spec b HEIGHT y' x hx]
    simp only [wrapX, hH, hB, hW]
    by_cases hx0 : x = 0
    · subst hx0
      rw [if_pos ⟨h1, by omega, rfl⟩, if_pos rfl]
    · rw [if_neg (by tauto), if_neg hx0]
      by_cases hx41 : x = 41
      · subst hx41
        rw [if_pos ⟨h1, by omega, rfl⟩, if_pos rfl]
      · rw [if_neg (by tauto), if_neg hx41]
  simp only [update_borders]
  by_cases hy0 : y = 0
  · subst hy0
    rw [copyRow_out _ _ _ 0 x (by omega) (by simp [hBH]), copyRow_in _ _ _ x (by omega)]
    rw [hmir HEIGHT (by simp [hH]) (by simp [hH])]
    simp [wrapY]
  · by_cases hy26 : y = 26
    · subst hy26
      rw [show (26 : Nat) = BHEIGHT - 1 from rfl, copyRow_in _ _ _ x (by omega)]
      rw [copyRow_out _ _ _ 1 x (by omega) (by omega)]
      rw [hmir 1 (by omega) (by omega)]
      simp [wrapY, hBH]
    · rw [copyRow_out _ _ _ y x (by omega) (by omega)]
      rw [copyRow_out _ _ _ y x (by omega) hy0]
      rw [hmir y (by omega) (by omega)]
      have : wrapY y = y := by
        simp [wrapY, hy0, hBH, hy26]
      rw [this]

/-! ### The generation step on logical cells -/

theorem IDX_div (y x : Nat) (hx : x < 42) : IDX y x / BWIDTH = y := by
  simp only [IDX, BWIDTH, WIDTH]
  omega

theorem IDX_mod (y x : Nat) (hx : x < 42) : IDX y x % BWIDTH = x := by
  simp only [IDX, BWIDTH, WIDTH]
  omega

/-- The function `calc_next_gen` writes the rule value at every interior cell. -/
theorem calcNextBuf_interior (cur nxt : Buf) (y x : Nat)
    (hy1 : 1 ≤ y) (hy2 : y ≤ 25) (hx1 : 1 ≤ x) (hx2 : x ≤ 40) :
    calcNextBuf cur nxt (IDX y x) = rule (cur (IDX y x)) (neighbours cur y x) := by
  have hd : IDX y x / BWIDTH = y := IDX_div y x (by omega)
  have hm : IDX y x % BWIDTH = x := IDX_mod y x (by omega)
  have hcond : 1 ≤ y ∧ y ≤ HEIGHT ∧ 1 ≤ x ∧ x ≤ WIDTH := ⟨hy1, hy2, hx1, hx2⟩
  simp only [calcNextBuf, hd, hm, if_pos hcond]

/-- The eight physical reads of the neighbour sum, as bordered-grid cells. -/
theorem neighbours_idx (cur : Buf) (x y : Nat) :
    neighbours cur (y + 1) (x + 1) =
      cur (IDX y x) + cur (IDX y (x + 1)) + cur (IDX y (x + 2)) +
      cur (IDX (y + 1) x) + cur (IDX (y + 1) (x + 2)) +
      cur (IDX (y + 2) x) + cur (IDX (y + 2) (x + 1)) + cur (IDX (y + 2) (x + 2)) := by
  have e1 : (y + 1) * BWIDTH - BWIDTH + (x + 1) - 1 = IDX y x := by
    simp only [IDX, BWIDTH, WIDTH]; omega
  have e2 : (y + 1) * BWIDTH - BWIDTH + (x + 1) = IDX y (x + 1) := by
    simp only [IDX, BWIDTH, WIDTH]; omega
  have e3 : (y + 1) * BWIDTH - BWIDTH + (x + 1) + 1 = IDX y (x + 2) := by
    simp only [IDX, BWIDTH, WIDTH]; omega
  have e4 : (y + 1) * BWIDTH + (x + 1) - 1 = IDX (y + 1) x := by
    simp only [IDX, BWIDTH, WIDTH]; omega
  have e5 : (y + 1) * BWIDTH + (x + 1) + 1 = IDX (y + 1) (x + 2) := by
    simp only [IDX, BWIDTH, WIDTH]; omega
  have e6 : (y + 1) * BWIDTH + BWIDTH + (x + 1) - 1 = IDX (y + 2) x := by
    simp only [IDX, BWIDTH, WIDTH]; omega
  have e7 : (y + 1) * BWIDTH + BWIDTH + (x + 1) = IDX (y + 2) (x + 1) := by
    simp only [IDX, BWIDTH, WIDTH]; omega
  have e8 : (y + 1) * BWIDTH + BWIDTH + (x + 1) + 1 = IDX (y + 2) (x + 2) := by
    simp only [IDX, BWIDTH, WIDTH]; omega
  simp only [neighbours]
  rw [e1, e3, e2, e4, e5, e6, e8, e7]

theorem wrapY_eq (y : Nat) : wrapY y = if y = 0 then 25 else if y = 26 then 1 else y := by
  simp [wrapY, HEIGHT, BHEIGHT]

theorem wrapX_eq (x : Nat) : wrapX x = if x = 0 then 40 else if x = 41 then 1 else x := by
  simp [wrapX, WIDTH, BWIDTH]

/-- A logical 40×25 grid: cell state indexed by column then row. -/
def LGrid : Type := Nat → Nat → Nat

/-- Buffer `b` holds the logical grid `g` on its interior cells
(logical `(x,y)` at physical `(x+1, y+1)`). -/
def agrees (b : Buf) (g : LGrid) : Prop :=
  ∀ x y, x < 40 → y < 25 → b (IDX (y + 1) (x + 1)) = g x y

/-- The standard B3/S23 step on the logical 40×25 torus: the abstraction the
bordered-buffer engine implements.  Neighbour offsets use `+39 ≡ -1 (mod 40)`
and `+24 ≡ -1 (mod 25)`. -/
def lstep (g : LGrid) (x y : Nat) : Nat :=
  rule (g x y)
    (g ((x + 39) % 40) ((y + 24) % 25) + g x ((y + 24) % 25) + g ((x + 1) % 40) ((y + 24) % 25) +
     g ((x + 39) % 40) y + g ((x + 1) % 40) y +
     g ((x + 39) % 40) ((y + 1) % 25) + g x ((y + 1) % 25) + g ((x + 1) % 40) ((y + 1) % 25))

/-- Reading any physical cell of the mirrored buffer gives the logical cell at
the wrapped coordinates. -/
theorem ub_read (b : Buf) (g : LGrid) (h : agrees b g) (py px : Nat)
    (hy : py ≤ 26) (hx : px ≤ 41) :
    update_borders b (IDX py px) = g (wrapX px - 1) (wrapY py - 1) := by
  rw [update_borders_spec b py px hy hx]
  have hY := wrapY_eq py
  have hX := wrapX_eq px
  have hYb : 1 ≤ wrapY py ∧ wrapY py ≤ 25 := by
    rw [hY]; split_ifs <;> omega
  have hXb : 1 ≤ wrapX px ∧ wrapX px ≤ 40 := by
    rw [hX]; split_ifs <;> omega
  have := h (wrapX px - 1) (wrapY py - 1) (by omega) (by omega)
  rw [show wrapY py - 1 + 1 = wrapY py by omega, show wrapX px - 1 + 1 = wrapX px by omega] at this
  exact this

/-- Bridge: after borders are mirrored, `calc_next_gen` realizes the logical
toroidal B3/S23 step on the interior cells, whatever the old `next` holds. -/
theorem calcNext_bridge (b n0 : Buf) (g : LGrid) (h : agrees b g) :
    agrees (calcNextBuf (update_borders b) n0) (lstep g) := by
  intro x y hx hy
  rw [calcNextBuf_interior _ _ (y + 1) (x + 1) (by omega) (by omega) (by omega) (by omega)]
  have own : update_borders b (IDX (y + 1) (x + 1)) = g x y := by
    rw [ub_read b g h (y + 1) (x + 1) (by omega) (by omega)]
    rw [wrapY_eq, wrapX_eq]
    rw [if_neg (by omega), if_neg (by omega), if_neg (by omega), if_neg (by omega)]
    simp
  have ax0 : wrapX x - 1 = (x + 39) % 40 := by
    rw [wrapX_eq]; split_ifs <;> first | contradiction | omega
  have ax1 : wrapX (x + 1) - 1 = x := by
    rw [wrapX_eq]; split_ifs <;> first | contradiction | omega
  have ax2 : wrapX (x + 2) - 1 = (x + 1) % 40 := by
    rw [wrapX_eq]; split_ifs <;> first | contradiction | omega
  have ay0 : wrapY y - 1 = (y + 24) % 25 := by
    rw [wrapY_eq]; split_ifs <;> first | contradiction | omega
  have ay1 : wrapY (y + 1) - 1 = y := by
    rw [wrapY_eq]; split_ifs <;> first | contradiction | omega
  have ay2 : wrapY (y + 2) - 1 = (y + 1) % 25 := by
    rw [wrapY_eq]; split_ifs <;> first | contradiction | omega
  have nsum : neighbours (update_borders b) (y + 1) (x + 1) =
      g ((x + 39) % 40) ((y + 24) % 25) + g x ((y + 24) % 25) +
      g ((x + 1) % 40) ((y + 24) % 25) +
      g ((x + 39) % 40) y + g ((x + 1) % 40) y +
      g ((x + 39) % 40) ((y + 1) % 25) + g x ((y + 1) % 25) +
      g ((x + 1) % 40) ((y + 1) % 25) := by
    rw [neighbours_idx]
    rw [ub_read b g h y x (by omega) (by omega),
        ub_read b g h y (x + 1) (by omega) (by omega),
        ub_read b g h y (x + 2) (by omega) (by omega),
        ub_read b g h (y + 1) x (by omega) (by omega),
        ub_read b g h (y + 1) (x + 2) (by omega) (by omega),
        ub_read b g h (y + 2) x (by omega) (by omega),
        ub_read b g h (y + 2) (x + 1) (by omega) (by omega),
        ub_read b g h (y + 2) (x + 2) (by omega) (by omega)]
    rw [ax0, ax1, ax2, ay0, ay1, ay2]
  rw [own, nsum, lstep]

/-- One full generation cycle turns a buffer holding `g` into one holding
`lstep g` (on the logical cells of the new `current`). -/
theorem step_interior (s : LifeState) (g : LGrid) (h : agrees s.cur g) :
    agrees (step s).cur (lstep g) := by
  have : (step s).cur = calcNextBuf (update_borders s.cur) s.nxt := rfl
  rw [this]
  exact calcNext_bridge s.cur s.nxt g h

/-! ### Toroidal translation -/

/-- Toroidal translation of a logical grid (reading displaced by `(a, b)`). -/
def shift (g : LGrid) (a b : Nat) : LGrid := fun x y => g ((x + a) % 40) ((y + b) % 25)

/-- The logical step commutes with toroidal translation. -/
theorem lstep_shift (g : LGrid) (a b x y : Nat) :
    lstep (shift g a b) x y = lstep g ((x + a) % 40) ((y + b) % 25) := by
  simp only [lstep, shift, Nat.mod_add_mod]
  rw [Nat.add_right_comm x 39 a, Nat.add_right_comm y 24 b,
      Nat.add_right_comm x 1 a, Nat.add_right_comm y 1 b]

/-- The logical step at an in-range cell only reads in-range cells. -/
theorem lstep_congr (g g' : LGrid) (h : ∀ u v, u < 40 → v < 25 → g u v = g' u v)
    (x y : Nat) (hx : x < 40) (hy : y < 25) : lstep g x y = lstep g' x y := by
  simp only [lstep]
  rw [h x y hx hy,
      h ((x + 39) % 40) ((y + 24) % 25) (Nat.mod_lt _ (by omega)) (Nat.mod_lt _ (by omega)),
      h x ((y + 24) % 25) hx (Nat.mod_lt _ (by omega)),
      h ((x + 1) % 40) ((y + 24) % 25) (Nat.mod_lt _ (by omega)) (Nat.mod_lt _ (by omega)),
      h ((x + 39) % 40) y (Nat.mod_lt _ (by omega)) hy,
      h ((x + 1) % 40) y (Nat.mod_lt _ (by omega)) hy,
      h ((x + 39) % 40) ((y + 1) % 25) (Nat.mod_lt _ (by omega)) (Nat.mod_lt _ (by omega)),
      h x ((y + 1) % 25) hx (Nat.mod_lt _ (by omega)),
      h ((x + 1) % 40) ((y + 1) % 25) (Nat.mod_lt _ (by omega)) (Nat.mod_lt _ (by omega))]

/-! ### Preset patterns (C5–C7) -/

/-- The 2×2 block whose top-left corner is anchored at `(a, b)` on the torus
(live cells `{(a,b),(a+1,b),(a,b+1),(a+1,b+1)}` taken mod 40×25). -/
def blockAt (a b : Nat) : LGrid := fun x y =>
  if (x = a % 40 ∨ x = (a + 1) % 40) ∧ (y = b % 25 ∨ y = (b + 1) % 25) then 1 else 0

/-- The block anchored at the origin. -/
def blockC : LGrid := fun x y => if (x = 0 ∨ x = 1) ∧ (y = 0 ∨ y = 1) then 1 else 0

theorem blockAt_shift (a b : Nat) : ∀ x y, x < 40 → y < 25 →
    blockAt a b x y = shift blockC ((40 - a % 40) % 40) ((25 - b % 25) % 25) x y := by
  intro x y hx hy
  simp only [blockAt, shift, blockC]
  have h1 : ((x = a % 40 ∨ x = (a + 1) % 40) ∧ (y = b % 25 ∨ y = (b + 1) % 25)) ↔
      (((x + (40 - a % 40) % 40) % 40 = 0 ∨ (x + (40 - a % 40) % 40) % 40 = 1) ∧
       ((y + (25 - b % 25) % 25) % 25 = 0 ∨ (y + (25 - b % 25) % 25) % 25 = 1)) := by
    omega
  rw [if_congr h1 rfl rfl]

theorem blockC_fix : ∀ x < 40, ∀ y < 25, lstep blockC x y = blockC x y := by decide

/-- C5: a 2×2 block at any toroidal anchor is a fixed point of one full
generation step (mirror borders, compute next generation, swap): the new
current buffer holds the same logical grid. -/
theorem claim_C5_block_still_life (a b : Nat) (s : LifeState)
    (h : agrees s.cur (blockAt a b)) : agrees (step s).cur (blockAt a b) := by
  have hs := step_interior s (blockAt a b) h
  intro x y hx hy
  rw [hs x y hx hy,
      lstep_congr _ _ (blockAt_shift a b) x y hx hy,
      lstep_shift,
      blockC_fix _ (Nat.mod_lt _ (by omega)) _ (Nat.mod_lt _ (by omega))]
  exact (blockAt_shift a b x y hx hy).symm

/-- Loading a logical grid into the interior of a buffer (borders and the
other buffers arbitrary) yields a state agreeing with it. -/
theorem embed_agrees (g : LGrid) (n0 s0 : Buf) :
    agrees (LifeState.mk (fun i => g (i % 42 - 1) (i / 42 - 1)) n0 s0).cur g := by
  intro x y hx hy
  show g (IDX (y + 1) (x + 1) % 42 - 1) (IDX (y + 1) (x + 1) / 42 - 1) = g x y
  have h1 : IDX (y + 1) (x + 1) % 42 - 1 = x := by
    simp only [IDX, BWIDTH, WIDTH]; omega
  have h2 : IDX (y + 1) (x + 1) / 42 - 1 = y := by
    simp only [IDX, BWIDTH, WIDTH]; omega
  rw [h1, h2]

/-- Witness for C5: the block anchored at `(38, 24)` (wrapping across both
seams), on a state whose borders and `next` buffer hold arbitrary junk. -/
theorem claim_C5_block_still_life_witness :
    agrees (LifeState.mk (fun i => blockAt 38 24 (i % 42 - 1) (i / 42 - 1)) (fun _ => 7)
        (fun _ => 9)).cur (blockAt 38 24) ∧
    agrees (step (LifeState.mk (fun i => blockAt 38 24 (i % 42 - 1) (i / 42 - 1)) (fun _ => 7)
        (fun _ => 9))).cur (blockAt 38 24) :=
  ⟨embed_agrees (blockAt 38 24) (fun _ => 7) (fun _ => 9),
   claim_C5_block_still_life 38 24 _ (embed_agrees (blockAt 38 24) (fun _ => 7) (fun _ => 9))⟩

/-! ### C6: the blinker oscillator -/

/-- A horizontal 3-in-a-row blinker with left cell at `(a, b)` (away from the
seam, so no wrap in the description). -/
def blinkerH (a b : Nat) : LGrid := fun x y =>
  if y = b ∧ (x = a ∨ x = a + 1 ∨ x = a + 2) then 1 else 0

/-- A vertical 3-in-a-row blinker centered at `(c, b)`. -/
def blinkerV (c b : Nat) : LGrid := fun x y =>
  if x = c ∧ (y + 1 = b ∨ y = b ∨ y = b + 1) then 1 else 0

/-- The canonical horizontal blinker, cells `(0,1),(1,1),(2,1)`. -/
def blinkerHC : LGrid := fun x y => if y = 1 ∧ (x = 0 ∨ x = 1 ∨ x = 2) then 1 else 0

/-- The canonical vertical blinker, cells `(1,0),(1,1),(1,2)`. -/
def blinkerVC : LGrid := fun x y => if x = 1 ∧ (y = 0 ∨ y = 1 ∨ y = 2) then 1 else 0

theorem blinkerHC_step : ∀ x < 40, ∀ y < 25, lstep blinkerHC x y = blinkerVC x y := by decide

theorem blinkerVC_step : ∀ x < 40, ∀ y < 25, lstep blinkerVC x y = blinkerHC x y := by decide

theorem blinkerH_shift (a b : Nat) (ha : a + 2 ≤ 39) (hb1 : 1 ≤ b) (hb2 : b + 1 ≤ 24) :
    ∀ x y, x < 40 → y < 25 →
      blinkerH a b x y = shift blinkerHC (40 - a) (26 - b) x y := by
  intro x y hx hy
  simp only [blinkerH, shift, blinkerHC]
  have h1 : (y = b ∧ (x = a ∨ x = a + 1 ∨ x = a + 2)) ↔
      ((y + (26 - b)) % 25 = 1 ∧
       ((x + (40 - a)) % 40 = 0 ∨ (x + (40 - a)) % 40 = 1 ∨ (x + (40 - a)) % 40 = 2)) := by
    omega
  rw [if_congr h1 rfl rfl]

theorem blinkerV_shift (a b : Nat) (ha : a + 2 ≤ 39) (hb1 : 1 ≤ b) (hb2 : b + 1 ≤ 24) :
    ∀ x y, x < 40 → y < 25 →
      blinkerV (a + 1) b x y = shift blinkerVC (40 - a) (26 - b) x y := by
  intro x y hx hy
  simp only [blinkerV, shift, blinkerVC]
  have h1 : (x = a + 1 ∧ (y + 1 = b ∨ y = b ∨ y = b + 1)) ↔
      ((x + (40 - a)) % 40 = 1 ∧
       ((y + (26 - b)) % 25 = 0 ∨ (y + (26 - b)) % 25 = 1 ∨ (y + (26 - b)) % 25 = 2)) := by
    omega
  rw [if_congr h1 rfl rfl]

/-- C6: one full generation step turns a horizontal blinker at `(a, b)` (away
from the seam) into the vertical blinker centered on the same middle cell
`(a+1, b)`, and a second step restores the original grid. -/
theorem claim_C6_blinker_period_two (a b : Nat) (s : LifeState)
    (ha : a + 2 ≤ 39) (hb1 : 1 ≤ b) (hb2 : b + 1 ≤ 24)
    (h : agrees s.cur (blinkerH a b)) :
    agrees (step s).cur (blinkerV (a + 1) b) ∧
    agrees (step (step s)).cur (blinkerH a b) := by
  have h1 : agrees (step s).cur (blinkerV (a + 1) b) := by
    have hs := step_interior s _ h
    intro x y hx hy
    rw [hs x y hx hy,
        lstep_congr _ _ (blinkerH_shift a b ha hb1 hb2) x y hx hy,
        lstep_shift,
        blinkerHC_step _ (Nat.mod_lt _ (by omega)) _ (Nat.mod_lt _ (by omega))]
    exact (blinkerV_shift a b ha hb1 hb2 x y hx hy).symm
  refine ⟨h1, ?_⟩
  have hs2 := step_interior (step s) _ h1
  intro x y hx hy
  rw [hs2 x y hx hy,
      lstep_congr _ _ (blinkerV_shift a b ha hb1 hb2) x y hx hy,
      lstep_shift,
      blinkerVC_step _ (Nat.mod_lt _ (by omega)) _ (Nat.mod_lt _ (by omega))]
  exact (blinkerH_shift a b ha hb1 hb2 x y hx hy).symm

/-- Witness for C6 at anchor `(10, 12)`. -/
theorem claim_C6_blinker_period_two_witness :
    (10 + 2 ≤ 39 ∧ 1 ≤ 12 ∧ 12 + 1 ≤ 24) ∧
    agrees (LifeState.mk (fun i => blinkerH 10 12 (i % 42 - 1) (i / 42 - 1)) (fun _ => 3)
        (fun _ => 5)).cur (blinkerH 10 12) ∧
    (agrees (step (LifeState.mk (fun i => blinkerH 10 12 (i % 42 - 1) (i / 42 - 1)) (fun _ => 3)
        (fun _ => 5))).cur (blinkerV (10 + 1) 12) ∧
     agrees (step (step (LifeState.mk (fun i => blinkerH 10 12 (i % 42 - 1) (i / 42 - 1))
        (fun _ => 3) (fun _ => 5)))).cur (blinkerH 10 12)) :=
  ⟨⟨by omega, by omega, by omega⟩,
   embed_agrees (blinkerH 10 12) (fun _ => 3) (fun _ => 5),
   claim_C6_blinker_period_two 10 12 _ (by omega) (by omega) (by omega)
     (embed_agrees (blinkerH 10 12) (fun _ => 3) (fun _ => 5))⟩

/-! ### C7: the glider -/

/-- The 5-cell glider `{(1,0),(2,1),(0,2),(1,2),(2,2)}` relative to anchor
`(a, b)`, taken mod 40×25. -/
def gliderAt (a b : Nat) : LGrid := fun x y =>
  if (x = (a + 1) % 40 ∧ y = b % 25) ∨ (x = (a + 2) % 40 ∧ y = (b + 1) % 25) ∨
     (x = a % 40 ∧ y = (b + 2) % 25) ∨ (x = (a + 1) % 40 ∧ y = (b + 2) % 25) ∨
     (x = (a + 2) % 40 ∧ y = (b + 2) % 25) then 1 else 0

/-- The canonical glider phases under the logical step. -/
def gliderP0 : LGrid := fun x y =>
  if (x = 1 ∧ y = 0) ∨ (x = 2 ∧ y = 1) ∨
     (x = 0 ∧ y = 2) ∨ (x = 1 ∧ y = 2) ∨ (x = 2 ∧ y = 2) then 1 else 0

def gliderP1 : LGrid := fun x y =>
  if (x = 0 ∧ y = 1) ∨ (x = 2 ∧ y = 1) ∨
     (x = 1 ∧ y = 2) ∨ (x = 2 ∧ y = 2) ∨ (x = 1 ∧ y = 3) then 1 else 0

def gliderP2 : LGrid := fun x y =>
  if (x = 2 ∧ y = 1) ∨ (x = 0 ∧ y = 2) ∨
     (x = 2 ∧ y = 2) ∨ (x = 1 ∧ y = 3) ∨ (x = 2 ∧ y = 3) then 1 else 0

def gliderP3 : LGrid := fun x y =>
  if (x = 1 ∧ y = 1) ∨ (x = 2 ∧ y = 2) ∨
     (x = 3 ∧ y = 2) ∨ (x = 1 ∧ y = 3) ∨ (x = 2 ∧ y = 3) then 1 else 0

def gliderP4 : LGrid := fun x y =>
  if (x = 2 ∧ y = 1) ∨ (x = 3 ∧ y = 2) ∨
     (x = 1 ∧ y = 3) ∨ (x = 2 ∧ y = 3) ∨ (x = 3 ∧ y = 3) then 1 else 0

theorem gliderP01 : ∀ x < 40, ∀ y < 25, lstep gliderP0 x y = gliderP1 x y := by decide

theorem gliderP12 : ∀ x < 40, ∀ y < 25, lstep gliderP1 x y = gliderP2 x y := by decide

theorem gliderP23 : ∀ x < 40, ∀ y < 25, lstep gliderP2 x y = gliderP3 x y := by decide

theorem gliderP34 : ∀ x < 40, ∀ y < 25, lstep gliderP3 x y = gliderP4 x y := by decide

theorem gliderAt_shift (a b : Nat) : ∀ x y, x < 40 → y < 25 →
    gliderAt a b x y = shift gliderP0 ((40 - a % 40) % 40) ((25 - b % 25) % 25) x y := by
  intro x y hx hy
  simp only [gliderAt, shift, gliderP0]
  have hx0 : x = a % 40 ↔ (x + (40 - a % 40) % 40) % 40 = 0 := by omega
  have hx1 : x = (a + 1) % 40 ↔ (x + (40 - a % 40) % 40) % 40 = 1 := by omega
  have hx2 : x = (a + 2) % 40 ↔ (x + (40 - a % 40) % 40) % 40 = 2 := by omega
  have hy0 : y = b % 25 ↔ (y + (25 - b % 25) % 25) % 25 = 0 := by omega
  have hy1 : y = (b + 1) % 25 ↔ (y + (25 - b % 25) % 25) % 25 = 1 := by omega
  have hy2 : y = (b + 2) % 25 ↔ (y + (25 - b % 25) % 25) % 25 = 2 := by omega
  simp only [hx0, hx1, hx2, hy0, hy1, hy2]

theorem gliderP4_shift (a b : Nat) : ∀ x y, x < 40 → y < 25 →
    shift gliderP4 ((40 - a % 40) % 40) ((25 - b % 25) % 25) x y =
      gliderAt (a + 1) (b + 1) x y := by
  intro x y hx hy
  simp only [gliderAt, shift, gliderP4]
  have hx1 : (x + (40 - a % 40) % 40) % 40 = 1 ↔ x = (a + 1) % 40 := by omega
  have hx2 : (x + (40 - a % 40) % 40) % 40 = 2 ↔ x = (a + 1 + 1) % 40 := by omega
  have hx3 : (x + (40 - a % 40) % 40) % 40 = 3 ↔ x = (a + 1 + 2) % 40 := by omega
  have hy1 : (y + (25 - b % 25) % 25) % 25 = 1 ↔ y = (b + 1) % 25 := by omega
  have hy2 : (y + (25 - b % 25) % 25) % 25 = 2 ↔ y = (b + 1 + 1) % 25 := by omega
  have hy3 : (y + (25 - b % 25) % 25) % 25 = 3 ↔ y = (b + 1 + 2) % 25 := by omega
  simp only [hx1, hx2, hx3, hy1, hy2, hy3]

/-- C7: four full generation steps translate a glider at any toroidal anchor
by `(+1, +1)` mod 40×25. -/
theorem claim_C7_glider_translates (a b : Nat) (s : LifeState)
    (h : agrees s.cur (gliderAt a b)) :
    agrees (step (step (step (step s)))).cur (gliderAt (a + 1) (b + 1)) := by
  have e0 := gliderAt_shift a b
  have e1 : ∀ u v, u < 40 → v < 25 → lstep (gliderAt a b) u v =
      shift gliderP1 ((40 - a % 40) % 40) ((25 - b % 25) % 25) u v := by
    intro u v hu hv
    rw [lstep_congr _ _ e0 u v hu hv, lstep_shift]
    exact gliderP01 _ (Nat.mod_lt _ (by omega)) _ (Nat.mod_lt _ (by omega))
  have e2 : ∀ u v, u < 40 → v < 25 → lstep (lstep (gliderAt a b)) u v =
      shift gliderP2 ((40 - a % 40) % 40) ((25 - b % 25) % 25) u v := by
    intro u v hu hv
    rw [lstep_congr _ _ e1 u v hu hv, lstep_shift]
    exact gliderP12 _ (Nat.mod_lt _ (by omega)) _ (Nat.mod_lt _ (by omega))
  have e3 : ∀ u v, u < 40 → v < 25 → lstep (lstep (lstep (gliderAt a b))) u v =
      shift gliderP3 ((40 - a % 40) % 40) ((25 - b % 25) % 25) u v := by
    intro u v hu hv
    rw [lstep_congr _ _ e2 u v hu hv, lstep_shift]
    exact gliderP23 _ (Nat.mod_lt _ (by omega)) _ (Nat.mod_lt _ (by omega))
  have e4 : ∀ u v, u < 40 → v < 25 → lstep (lstep (lstep (lstep (gliderAt a b)))) u v =
      gliderAt (a + 1) (b + 1) u v := by
    intro u v hu hv
    rw [lstep_congr _ _ e3 u v hu hv, lstep_shift,
        gliderP34 _ (Nat.mod_lt _ (by omega)) _ (Nat.mod_lt _ (by omega))]
    exact gliderP4_shift a b u v hu hv
  have h1 := step_interior s _ h
  have h2 := step_interior _ _ h1
  have h3 := step_interior _ _ h2
  have h4 := step_interior _ _ h3
  intro x y hx hy
  rw [h4 x y hx hy]
  exact e4 x y hx hy

/-- Witness for C7 at anchor `(38, 23)` (translation wraps both seams). -/
theorem claim_C7_glider_translates_witness :
    agrees (LifeState.mk (fun i => gliderAt 38 23 (i % 42 - 1) (i / 42 - 1)) (fun _ => 2)
        (fun _ => 4)).cur (gliderAt 38 23) ∧
    agrees (step (step (step (step (LifeState.mk
        (fun i => gliderAt 38 23 (i % 42 - 1) (i / 42 - 1)) (fun _ => 2)
        (fun _ => 4)))))).cur (gliderAt (38 + 1) (23 + 1)) :=
  ⟨embed_agrees (gliderAt 38 23) (fun _ => 2) (fun _ => 4),
   claim_C7_glider_translates 38 23 _
     (embed_agrees (gliderAt 38 23) (fun _ => 2) (fun _ => 4))⟩

/-! ### Rule-table facts and claims C1–C4 -/

theorem alive_getD (n : Nat) :
    next_from_alive.getD n 0 = if n = 2 ∨ n = 3 then 1 else 0 := by
  rcases n with _|_|_|_|_|_|_|_|_|n <;> simp [next_from_alive, List.getD]

theorem dead_getD (n : Nat) :
    next_from_dead.getD n 0 = if n = 3 then 1 else 0 := by
  rcases n with _|_|_|_|_|_|_|_|_|n <;> simp [next_from_dead, List.getD]

/-- Closed form of the branch-free rule: alive next iff the neighbour sum is 3,
or the cell is alive and the sum is 2. -/
theorem rule_spec (a n : Nat) :
    rule a n = if n = 3 ∨ (a ≠ 0 ∧ n = 2) then 1 else 0 := by
  by_cases h : a = 0
  · subst h
    simp only [rule]
    rw [if_neg (by omega), dead_getD]
    have h1 : (n = 3 ∨ ((0 : Nat) ≠ 0 ∧ n = 2)) ↔ n = 3 := by tauto
    simp only [h1]
  · simp only [rule, if_pos h, alive_getD]
    have h1 : (n = 2 ∨ n = 3) ↔ (n = 3 ∨ (a ≠ 0 ∧ n = 2)) := by tauto
    simp only [h1]

theorem rule_le_one (a n : Nat) : rule a n ≤ 1 := by
  rw [rule_spec]
  split <;> omega

/-- C1: on a mirrored grid, `calc_next_gen` writes into the next buffer at
every logical cell exactly the B3/S23 rule applied to the current buffer
(alive next iff the eight-neighbour sum is 3, or the cell is alive and the
sum is 2; the result is a 0/1 value), and the written value does not depend
on the prior contents of the next buffer. -/
theorem claim_C1_b3s23_step (b nxt0 : Buf) (x y : Nat) (hx : x < 40) (hy : y < 25) :
    (calcNextBuf (update_borders b) nxt0 (IDX (y + 1) (x + 1)) = 1 ↔
      (neighbours (update_borders b) (y + 1) (x + 1) = 3 ∨
       (update_borders b (IDX (y + 1) (x + 1)) ≠ 0 ∧
        neighbours (update_borders b) (y + 1) (x + 1) = 2))) ∧
    (calcNextBuf (update_borders b) nxt0 (IDX (y + 1) (x + 1)) = 0 ∨
     calcNextBuf (update_borders b) nxt0 (IDX (y + 1) (x + 1)) = 1) ∧
    (∀ nxt1, calcNextBuf (update_borders b) nxt1 (IDX (y + 1) (x + 1)) =
      calcNextBuf (update_borders b) nxt0 (IDX (y + 1) (x + 1))) := by
  rw [calcNextBuf_interior _ _ (y + 1) (x + 1) (by omega) (by omega) (by omega) (by omega)]
  refine ⟨?_, ?_, ?_⟩
  · rw [rule_spec]
    split
    · simp only [true_iff]
      assumption
    · constructor
      · intro h0
        exact absurd h0 (by omega)
      · intro hc
        exact absurd hc (by assumption)
  · rw [rule_spec]
    split
    · right; rfl
    · left; rfl
  · intro nxt1
    rw [calcNextBuf_interior _ _ (y + 1) (x + 1) (by omega) (by omega) (by omega) (by omega)]

/-- Witness for C1 at cell `(0, 0)` of the all-zero grid. -/
theorem claim_C1_b3s23_step_witness :
    (0 : Nat) < 40 ∧ (0 : Nat) < 25 ∧
    (calcNextBuf (update_borders (fun _ => 0)) (fun _ => 0) (IDX 1 1) = 1 ↔
      (neighbours (update_borders (fun _ => 0)) 1 1 = 3 ∨
       (update_borders (fun _ => 0) (IDX 1 1) ≠ 0 ∧
        neighbours (update_borders (fun _ => 0)) 1 1 = 2))) :=
  ⟨by omega, by omega,
   (claim_C1_b3s23_step (fun _ => 0) (fun _ => 0) 0 0 (by omega) (by omega)).1⟩

/-- C2: after `update_borders`, every border cell of the result equals its
toroidal counterpart: the top/bottom border rows mirror the opposite interior
rows, the left/right border columns mirror the opposite interior columns, and
each corner equals the diagonally-opposite interior corner. -/
theorem claim_C2_borders_mirror (b : Buf) :
    (∀ x, 1 ≤ x → x ≤ 40 →
      update_borders b (IDX 0 x) = update_borders b (IDX 25 x) ∧
      update_borders b (IDX 26 x) = update_borders b (IDX 1 x)) ∧
    (∀ y, 1 ≤ y → y ≤ 25 →
      update_borders b (IDX y 0) = update_borders b (IDX y 40) ∧
      update_borders b (IDX y 41) = update_borders b (IDX y 1)) ∧
    update_borders b (IDX 0 0) = update_borders b (IDX 25 40) ∧
    update_borders b (IDX 0 41) = update_borders b (IDX 25 1) ∧
    update_borders b (IDX 26 0) = update_borders b (IDX 1 40) ∧
    update_borders b (IDX 26 41) = update_borders b (IDX 1 1) := by
  refine ⟨?_, ?_, ?_, ?_, ?_, ?_⟩
  · intro x hx1 hx2
    constructor
    · rw [update_borders_spec b 0 x (by omega) (by omega),
          update_borders_spec b 25 x (by omega) (by omega)]
      rfl
    · rw [update_borders_spec b 26 x (by omega) (by omega),
          update_borders_spec b 1 x (by omega) (by omega)]
      rfl
  · intro y hy1 hy2
    constructor
    · rw [update_borders_spec b y 0 (by omega) (by omega),
          update_borders_spec b y 40 (by omega) (by omega)]
      rfl
    · rw [update_borders_spec b y 41 (by omega) (by omega),
          update_borders_spec b y 1 (by omega) (by omega)]
      rfl
  · rw [update_borders_spec b 0 0 (by omega) (by omega),
        update_borders_spec b 25 40 (by omega) (by omega)]
    rfl
  · rw [update_borders_spec b 0 41 (by omega) (by omega),
        update_borders_spec b 25 1 (by omega) (by omega)]
    rfl
  · rw [update_borders_spec b 26 0 (by omega) (by omega),
        update_borders_spec b 1 40 (by omega) (by omega)]
    rfl
  · rw [update_borders_spec b 26 41 (by omega) (by omega),
        update_borders_spec b 1 1 (by omega) (by omega)]
    rfl

/-- Witness for C2: the left/top relations at concrete cells of a concrete
buffer. -/
theorem claim_C2_borders_mirror_witness :
    update_borders (fun i => i) (IDX 0 5) = update_borders (fun i => i) (IDX 25 5) ∧
    update_borders (fun i => i) (IDX 3 0) = update_borders (fun i => i) (IDX 3 40) ∧
    update_borders (fun i => i) (IDX 0 0) = update_borders (fun i => i) (IDX 25 40) :=
  ⟨((claim_C2_borders_mirror (fun i => i)).1 5 (by omega) (by omega)).1,
   ((claim_C2_borders_mirror (fun i => i)).2.1 3 (by omega) (by omega)).1,
   (claim_C2_borders_mirror (fun i => i)).2.2.1⟩

/-- C3: the two 9-entry rule tables encode exactly B3/S23. -/
theorem claim_C3_rule_tables : ∀ n ≤ 8,
    (next_from_alive.getD n 0 = 1 ↔ (n = 2 ∨ n = 3)) ∧
    (next_from_dead.getD n 0 = 1 ↔ n = 3) ∧
    (¬(n = 2 ∨ n = 3) → next_from_alive.getD n 0 = 0) ∧
    (n ≠ 3 → next_from_dead.getD n 0 = 0) := by decide

/-- Witness for C3 at `n = 2`. -/
theorem claim_C3_rule_tables_witness :
    (2 : Nat) ≤ 8 ∧
    ((next_from_alive.getD 2 0 = 1 ↔ ((2 : Nat) = 2 ∨ (2 : Nat) = 3)) ∧
     (next_from_dead.getD 2 0 = 1 ↔ (2 : Nat) = 3) ∧
     (¬((2 : Nat) = 2 ∨ (2 : Nat) = 3) → next_from_alive.getD 2 0 = 0) ∧
     ((2 : Nat) ≠ 3 → next_from_dead.getD 2 0 = 0)) :=
  ⟨by decide, claim_C3_rule_tables 2 (by decide)⟩

/-- C4: after `calc_next_gen`, the display buffer at offset `y*40 + x` holds
the live glyph `0x51` iff the next buffer's cell at `(x, y)` is alive, and
the blank glyph otherwise (it is built from the next generation, never from
the current one). -/
theorem claim_C4_screen_consistency (s : LifeState) (x y : Nat)
    (hx : x < 40) (hy : y < 25) :
    ((calc_next_gen s).scr (y * 40 + x) = LIVE_CHAR ↔
      (calc_next_gen s).nxt (IDX (y + 1) (x + 1)) ≠ 0) ∧
    ((calc_next_gen s).scr (y * 40 + x) = LIVE_CHAR ∨
     (calc_next_gen s).scr (y * 40 + x) = DEAD_CHAR) := by
  have hnxt : (calc_next_gen s).nxt (IDX (y + 1) (x + 1)) =
      rule (s.cur (IDX (y + 1) (x + 1))) (neighbours s.cur (y + 1) (x + 1)) := by
    show calcNextBuf s.cur s.nxt (IDX (y + 1) (x + 1)) = _
    rw [calcNextBuf_interior _ _ (y + 1) (x + 1) (by omega) (by omega) (by omega) (by omega)]
  have hdiv : (y * 40 + x) / WIDTH + 1 = y + 1 := by
    simp only [WIDTH]; omega
  have hmod : (y * 40 + x) % WIDTH + 1 = x + 1 := by
    simp only [WIDTH]; omega
  have hlt : y * 40 + x < WIDTH * HEIGHT := by
    simp only [WIDTH, HEIGHT]; omega
  have hscr : (calc_next_gen s).scr (y * 40 + x) =
      if rule (s.cur (IDX (y + 1) (x + 1))) (neighbours s.cur (y + 1) (x + 1)) ≠ 0
      then LIVE_CHAR else DEAD_CHAR := by
    show calcScreen s.cur s.scr (y * 40 + x) = _
    simp only [calcScreen, if_pos hlt, hdiv, hmod]
  rw [hnxt, hscr]
  constructor
  · by_cases h : rule (s.cur (IDX (y + 1) (x + 1))) (neighbours s.cur (y + 1) (x + 1)) ≠ 0
    · rw [if_pos h]
      simp [h]
    · rw [if_neg h]
      simp only [LIVE_CHAR, DEAD_CHAR]
      constructor
      · intro h32
        exact absurd h32 (by omega)
      · intro hne
        exact absurd hne h
  · split
    · left; rfl
    · right; rfl

/-- Witness for C4 at cell `(0, 0)` of the all-zero state. -/
theorem claim_C4_screen_consistency_witness :
    (0 : Nat) < 40 ∧ (0 : Nat) < 25 ∧
    ((calc_next_gen (LifeState.mk (fun _ => 0) (fun _ => 0) (fun _ => 0))).scr (0 * 40 + 0) =
        LIVE_CHAR ↔
      (calc_next_gen (LifeState.mk (fun _ => 0) (fun _ => 0) (fun _ => 0))).nxt
        (IDX (0 + 1) (0 + 1)) ≠ 0) :=
  ⟨by omega, by omega,
   (claim_C4_screen_consistency (LifeState.mk (fun _ => 0) (fun _ => 0) (fun _ => 0)) 0 0
     (by omega) (by omega)).1⟩

/-! ### Preset stamping (`draw_preset`) and the remaining writers -/

/-- Source `static const signed char P_BLOCK[][2]` as `(dx, dy)` pairs. -/
def P_BLOCK : List (Int × Int) := [(0, 0), (1, 0), (0, 1), (1, 1)]

/-- Source `static const signed char P_BLINKER[][2]`. -/
def P_BLINKER : List (Int × Int) := [(0, 0), (1, 0), (2, 0)]

/-- Source `static const signed char P_GLIDER[][2]`. -/
def P_GLIDER : List (Int × Int) := [(1, 0), (2, 1), (0, 2), (1, 2), (2, 2)]

/-- Source `static const signed char P_GGUN[][2]`. -/
def P_GGUN : List (Int × Int) :=
  [(0, 4), (1, 4), (0, 5), (1, 5),
   (10, 4), (10, 5), (10, 6), (11, 3), (11, 7), (12, 2), (12, 8), (13, 2), (13, 8),
   (14, 5), (15, 3), (15, 7), (16, 4), (16, 5), (16, 6), (17, 5),
   (20, 2), (20, 3), (20, 4), (21, 2), (21, 3), (21, 4), (22, 1), (22, 5),
   (24, 0), (24, 1), (24, 5), (24, 6),
   (34, 2), (34, 3), (35, 2), (35, 3)]

/-- Source `static void draw_preset(int y0, int x0, const signed char (*pts)[2], int n)`:
for each point, `y = y0 + pts[i][1]; x = x0 + pts[i][0];` and only if
`1 ≤ y ≤ HEIGHT && 1 ≤ x ≤ WIDTH` the cell and its glyph are set. -/
def draw_preset (s : LifeState) (y0 x0 : Int) : List (Int × Int) → LifeState
  | [] => s
  | p :: rest =>
    let y := y0 + p.2
    let x := x0 + p.1
    let s' :=
      if 1 ≤ y ∧ y ≤ (HEIGHT : Int) ∧ 1 ≤ x ∧ x ≤ (WIDTH : Int) then
        { s with cur := store s.cur (IDX y.toNat x.toNat) 1,
                 scr := store s.scr ((y.toNat - 1) * WIDTH + (x.toNat - 1)) LIVE_CHAR }
      else s
    draw_preset s' y0 x0 rest

/-- The buffer indices a run of `draw_preset` is allowed to touch: those of
pattern points whose stamped coordinate is in range (equivalently, whose
absolute logical coordinate lies in `[0,40) × [0,25)`). -/
def targeted (y0 x0 : Int) (pts : List (Int × Int)) (i : Nat) : Prop :=
  ∃ p ∈ pts, (1 ≤ y0 + p.2 ∧ y0 + p.2 ≤ (HEIGHT : Int) ∧
      1 ≤ x0 + p.1 ∧ x0 + p.1 ≤ (WIDTH : Int)) ∧
    i = IDX (y0 + p.2).toNat (x0 + p.1).toNat

theorem targeted_nil (y0 x0 : Int) (i : Nat) : ¬targeted y0 x0 [] i := by
  simp [targeted]

theorem targeted_cons (y0 x0 : Int) (p : Int × Int) (rest : List (Int × Int)) (i : Nat) :
    targeted y0 x0 (p :: rest) i ↔
      ((1 ≤ y0 + p.2 ∧ y0 + p.2 ≤ (HEIGHT : Int) ∧
        1 ≤ x0 + p.1 ∧ x0 + p.1 ≤ (WIDTH : Int)) ∧
       i = IDX (y0 + p.2).toNat (x0 + p.1).toNat) ∨ targeted y0 x0 rest i := by
  simp [targeted]

/-- C8: stamping a preset sets to alive exactly the pattern cells whose
stamped coordinate is in range; out-of-range points are silently dropped
(no wraparound write happens anywhere else), untouched cells keep their
previous value, and the `next` buffer is untouched. -/
theorem claim_C8_draw_preset_clips (s : LifeState) (y0 x0 : Int) (pts : List (Int × Int)) :
    (∀ i, targeted y0 x0 pts i → (draw_preset s y0 x0 pts).cur i = 1) ∧
    (∀ i, ¬targeted y0 x0 pts i → (draw_preset s y0 x0 pts).cur i = s.cur i) ∧
    (draw_preset s y0 x0 pts).nxt = s.nxt := by
  induction pts generalizing s with
  | nil =>
    exact ⟨fun i hi => absurd hi (targeted_nil y0 x0 i), fun i _ => rfl, rfl⟩
  | cons p rest ih =>
    simp only [draw_preset]
    by_cases hin : 1 ≤ y0 + p.2 ∧ y0 + p.2 ≤ (HEIGHT : Int) ∧
        1 ≤ x0 + p.1 ∧ x0 + p.1 ≤ (WIDTH : Int)
    · rw [if_pos hin]
      set s' : LifeState :=
        { s with cur := store s.cur (IDX (y0 + p.2).toNat (x0 + p.1).toNat) 1,
                 scr := store s.scr
                   (((y0 + p.2).toNat - 1) * WIDTH + ((x0 + p.1).toNat - 1)) LIVE_CHAR } with hs'
      refine ⟨?_, ?_, (ih s').2.2⟩
      · intro i hi
        rcases (targeted_cons y0 x0 p rest i).mp hi with ⟨_, rfl⟩ | ht
        · by_cases hr : targeted y0 x0 rest (IDX (y0 + p.2).toNat (x0 + p.1).toNat)
          · exact (ih s').1 _ hr
          · rw [(ih s').2.1 _ hr]
            exact store_self _ _ _
        · exact (ih s').1 _ ht
      · intro i hi
        rw [targeted_cons] at hi
        push_neg at hi
        rw [(ih s').2.1 _ hi.2]
        exact store_other _ _ _ _ (hi.1 hin)
    · rw [if_neg hin]
      refine ⟨?_, ?_, (ih s).2.2⟩
      · intro i hi
        rcases (targeted_cons y0 x0 p rest i).mp hi with ⟨hc, _⟩ | ht
        · exact absurd hc hin
        · exact (ih s).1 _ ht
      · intro i hi
        rw [targeted_cons] at hi
        push_neg at hi
        exact (ih s).2.1 _ hi.2

/-- Witness for C8: the glider stamped at physical anchor `(24, 39)` clips:
the point `(1,0)` lands in range at physical `(24, 40)` and is set, the point
`(2,1)` falls outside and writes nowhere (index 0 keeps its value). -/
theorem claim_C8_draw_preset_clips_witness :
    targeted 24 39 P_GLIDER (IDX 24 40) ∧
    (draw_preset (LifeState.mk (fun _ => 0) (fun _ => 0) (fun _ => 0)) 24 39 P_GLIDER).cur
      (IDX 24 40) = 1 ∧
    ¬targeted 24 39 P_GLIDER 0 ∧
    (draw_preset (LifeState.mk (fun _ => 0) (fun _ => 0) (fun _ => 0)) 24 39 P_GLIDER).cur 0 =
      (LifeState.mk (fun _ => 0) (fun _ => 0) (fun _ => 0)).cur 0 :=
  ⟨by unfold targeted; decide,
   (claim_C8_draw_preset_clips (LifeState.mk (fun _ => 0) (fun _ => 0) (fun _ => 0))
     24 39 P_GLIDER).1 _ (by unfold targeted; decide),
   by unfold targeted; decide,
   (claim_C8_draw_preset_clips (LifeState.mk (fun _ => 0) (fun _ => 0) (fun _ => 0))
     24 39 P_GLIDER).2.1 _ (by unfold targeted; decide)⟩

/-- C9: `update_borders` mutates only the border of `current`: every interior
cell of `current`, and the whole of `next` and of the display buffer, are
unchanged. -/
theorem claim_C9_borders_touch_only_border (s : LifeState) :
    (∀ y x, 1 ≤ y → y ≤ 25 → 1 ≤ x → x ≤ 40 →
      (update_borders_st s).cur (IDX y x) = s.cur (IDX y x)) ∧
    (update_borders_st s).nxt = s.nxt ∧
    (update_borders_st s).scr = s.scr := by
  refine ⟨?_, rfl, rfl⟩
  intro y x hy1 hy2 hx1 hx2
  show update_borders s.cur (IDX y x) = s.cur (IDX y x)
  rw [update_borders_spec _ y x (by omega) (by omega)]
  have hwy : wrapY y = y := by
    rw [wrapY_eq, if_neg (by omega), if_neg (by omega)]
  have hwx : wrapX x = x := by
    rw [wrapX_eq, if_neg (by omega), if_neg (by omega)]
  rw [hwy, hwx]

/-- Witness for C9 at interior cell `(3, 7)` of a concrete state. -/
theorem claim_C9_borders_touch_only_border_witness :
    ((1 : Nat) ≤ 3 ∧ (3 : Nat) ≤ 25 ∧ (1 : Nat) ≤ 7 ∧ (7 : Nat) ≤ 40) ∧
    (update_borders_st (LifeState.mk (fun i => i) (fun i => i + 1) (fun i => i + 2))).cur
        (IDX 3 7) =
      (LifeState.mk (fun i => i) (fun i => i + 1) (fun i => i + 2)).cur (IDX 3 7) :=
  ⟨⟨by decide, by decide, by decide, by decide⟩,
   (claim_C9_borders_touch_only_border
     (LifeState.mk (fun i => i) (fun i => i + 1) (fun i => i + 2))).1 3 7
     (by decide) (by decide) (by decide) (by decide)⟩

/-! ### C10: every writer keeps cells in {0,1}; the rule-table index is safe -/

/-- Source `void initialize_grid_random(void)`: `memset(current, 0, ...)`, then every
logical cell gets `rand() & 1` (the k-th call feeding cell `(y,x)` with
`k = (y-1)*WIDTH + (x-1)`), and `screenBuf` gets the matching glyphs.
The pseudo-random stream is an explicit input `rnd`. -/
def initialize_grid_random (rnd : Nat → Nat) (s : LifeState) : LifeState :=
  { s with
    cur := fun i =>
      if 1 ≤ i / BWIDTH ∧ i / BWIDTH ≤ HEIGHT ∧ 1 ≤ i % BWIDTH ∧ i % BWIDTH ≤ WIDTH then
        rnd ((i / BWIDTH - 1) * WIDTH + (i % BWIDTH - 1)) &&& 1
      else 0,
    scr := fun p =>
      if p < WIDTH * HEIGHT then
        if rnd p &&& 1 ≠ 0 then LIVE_CHAR else DEAD_CHAR
      else s.scr p }

/-- Source `static void clear_grid(void)`: `memset(current, 0, ...)` and a
`DEAD_CHAR` fill of `screenBuf`. -/
def clear_grid (s : LifeState) : LifeState :=
  { s with
    cur := fun _ => 0,
    scr := fun p => if p < WIDTH * HEIGHT then DEAD_CHAR else s.scr p }

/-- The SPACE branch of `draw_editor`:
`v = current[IDX(cy,cx)] ^ 1; current[IDX(cy,cx)] = v; screenBuf[pos] = ...`. -/
def toggle_cell (s : LifeState) (cy cx : Nat) : LifeState :=
  let v := s.cur (IDX cy cx) ^^^ 1
  { s with
    cur := store s.cur (IDX cy cx) v,
    scr := store s.scr ((cy - 1) * WIDTH + (cx - 1))
      (if v ≠ 0 then LIVE_CHAR else DEAD_CHAR) }

/-- All bytes of a buffer are 0 or 1. -/
def Bounded (b : Buf) : Prop := ∀ i, b i ≤ 1

/-- Both grid buffers hold only 0/1 cells. -/
def BoundedS (s : LifeState) : Prop := Bounded s.cur ∧ Bounded s.nxt

theorem store_bounded {b : Buf} (h : Bounded b) {v : Nat} (hv : v ≤ 1) (i : Nat) :
    Bounded (store b i v) := by
  intro j
  by_cases hji : j = i
  · subst hji
    rw [store_self]
    exact hv
  · rw [store_other _ _ _ _ hji]
    exact h j

theorem mirrorRows_bounded {b : Buf} (h : Bounded b) (n : Nat) :
    Bounded (mirrorRows b n) := by
  induction n with
  | zero => exact h
  | succ n ih =>
    show Bounded (mirrorRow (mirrorRows b n) (n + 1))
    simp only [mirrorRow]
    exact store_bounded (store_bounded ih (ih _) _) (store_bounded ih (ih _) _ _) _

theorem copyRow_bounded {b : Buf} (h : Bounded b) (dst src : Nat) :
    Bounded (copyRow b dst src) := by
  intro i
  simp only [copyRow]
  split
  · exact h _
  · exact h i

theorem update_borders_bounded {b : Buf} (h : Bounded b) :
    Bounded (update_borders b) :=
  copyRow_bounded (copyRow_bounded (mirrorRows_bounded h HEIGHT) 0 HEIGHT) (BHEIGHT - 1) 1

theorem neighbours_le_eight {cur : Buf} (h : Bounded cur) (y x : Nat) :
    neighbours cur y x ≤ 8 := by
  simp only [neighbours]
  have h1 := h (y * BWIDTH - BWIDTH + x - 1)
  have h2 := h (y * BWIDTH - BWIDTH + x)
  have h3 := h (y * BWIDTH - BWIDTH + x + 1)
  have h4 := h (y * BWIDTH + x - 1)
  have h5 := h (y * BWIDTH + x + 1)
  have h6 := h (y * BWIDTH + BWIDTH + x - 1)
  have h7 := h (y * BWIDTH + BWIDTH + x)
  have h8 := h (y * BWIDTH + BWIDTH + x + 1)
  omega

/-- C10: every grid-writing operation (random initialization, grid clearing,
editor cell toggle, preset stamping, border mirroring, the generation step
and the buffer swap) keeps every cell of both grid buffers in {0,1}; hence
inside `calc_next_gen` the eight-neighbour sum is at most 8 and every lookup
into the two 9-entry rule tables is within bounds. -/
theorem claim_C10_cells_stay_binary :
    (∀ rnd s, BoundedS s → BoundedS (initialize_grid_random rnd s)) ∧
    (∀ s, BoundedS s → BoundedS (clear_grid s)) ∧
    (∀ s cy cx, BoundedS s → BoundedS (toggle_cell s cy cx)) ∧
    (∀ s y0 x0 pts, BoundedS s → BoundedS (draw_preset s y0 x0 pts)) ∧
    (∀ s, BoundedS s → BoundedS (update_borders_st s)) ∧
    (∀ s, BoundedS s → BoundedS (calc_next_gen s)) ∧
    (∀ s, BoundedS s → BoundedS (swap_bufs s)) ∧
    (∀ cur, Bounded cur → ∀ y x,
      neighbours cur y x < next_from_alive.length ∧
      neighbours cur y x < next_from_dead.length) := by
  refine ⟨?_, ?_, ?_, ?_, ?_, ?_, ?_, ?_⟩
  · intro rnd s hs
    refine ⟨?_, hs.2⟩
    intro i
    show (if _ then rnd ((i / BWIDTH - 1) * WIDTH + (i % BWIDTH - 1)) &&& 1 else 0) ≤ 1
    split
    · exact Nat.and_le_right
    · omega
  · intro s hs
    exact ⟨fun i => Nat.zero_le 1, hs.2⟩
  · intro s cy cx hs
    refine ⟨?_, hs.2⟩
    refine store_bounded hs.1 ?_ _
    rcases Nat.le_one_iff_eq_zero_or_eq_one.mp (hs.1 (IDX cy cx)) with h0 | h1
    · rw [h0]; decide
    · rw [h1]; decide
  · intro s y0 x0 pts hs
    induction pts generalizing s with
    | nil => exact hs
    | cons p rest ih =>
      show BoundedS (draw_preset _ y0 x0 rest)
      apply ih
      split
      · exact ⟨store_bounded hs.1 (by omega) _, hs.2⟩
      · exact hs
  · intro s hs
    exact ⟨update_borders_bounded hs.1, hs.2⟩
  · intro s hs
    refine ⟨hs.1, ?_⟩
    intro i
    show (if _ then rule (s.cur i) (neighbours s.cur (i / BWIDTH) (i % BWIDTH)) else s.nxt i) ≤ 1
    split
    · exact rule_le_one _ _
    · exact hs.2 i
  · intro s hs
    exact ⟨hs.2, hs.1⟩
  · intro cur h y x
    have := neighbours_le_eight h y x
    constructor
    · show neighbours cur y x < 9
      omega
    · show neighbours cur y x < 9
      omega

/-- Witness for C10: the all-zero state is bounded, stays bounded through
`clear_grid`, and its neighbour sums index the tables in bounds. -/
theorem claim_C10_cells_stay_binary_witness :
    BoundedS (LifeState.mk (fun _ => 0) (fun _ => 0) (fun _ => 0)) ∧
    BoundedS (clear_grid (LifeState.mk (fun _ => 0) (fun _ => 0) (fun _ => 0))) ∧
    neighbours (LifeState.mk (fun _ => 0) (fun _ => 0) (fun _ => 0)).cur 3 7 <
      next_from_alive.length :=
  ⟨⟨fun _ => Nat.zero_le 1, fun _ => Nat.zero_le 1⟩,
   claim_C10_cells_stay_binary.2.1 _ ⟨fun _ => Nat.zero_le 1, fun _ => Nat.zero_le 1⟩,
   (claim_C10_cells_stay_binary.2.2.2.2.2.2.2 _ (fun _ => Nat.zero_le 1) 3 7).1⟩

end GameOfLife
